import Mathlib

/-!
# ftdi-synchronous-serial: interop helpers and the device bring-up probe

A shallow embedding of `Sources/CInterop/CInterop.c` (`getPtrToString`,
`consumeBytes`) and of `ftdi-probe/probe.c` (`main`), with the properties of
the two programs proved over the embedding.

Conventions of the embedding.

* Memory is a set of objects; a pointer is null or an (object, offset) pair.
* `assert` is the standard C macro with `NDEBUG` undefined (neither source file
  defines it): a false condition terminates the process.
* A read outside every object is undefined behaviour and is reported as the
  outcome `undefined` instead of being given a value.
-/

namespace CInterop

/-- The objects a pointer may refer to: the function-local static array `data`
of `getPtrToString`, or an array of `unsigned char` owned by the caller. -/
inductive Block where
  | data
  | caller (id : Nat)
deriving DecidableEq, Repr

/-- A pointer value: null, or an object together with an element offset. -/
inductive Ptr where
  | null
  | obj (block : Block) (off : Nat)
deriving DecidableEq, Repr

/-- Pointer arithmetic `p + i`. -/
def Ptr.add : Ptr → Nat → Ptr
  | .null, _ => .null
  | .obj b off, i => .obj b (off + i)

/-- The mutable memory of the caller: pointer cells of type `char const *`
(addressed by a cell id) and arrays of `unsigned char` (addressed by an object
id). -/
structure State where
  slots : Nat → Ptr
  bufs : Nat → List Nat

/-- The initialiser `static char const data[] = "abc";`: the three characters of
the literal followed by the terminator the literal implies. The object is
`const` with static storage duration, so it is not part of the mutable state. -/
def data : List Nat := "abc".toList.map Char.toNat ++ [0]

/-- Reading one array element through a pointer; `none` when the pointer does not
designate an element of a live object. -/
def load (s : State) : Ptr → Option Nat
  | .null => none
  | .obj .data off => data[off]?
  | .obj (.caller id) off => (s.bufs id)[off]?

/-- How a call ends. -/
inductive Outcome where
  | returned
  | assertFailed
  | undefined
deriving DecidableEq, Repr

/-- The result of running a function: how it ended, the caller memory at that
point, and the indices `i` of the element reads `bytes[i]` in execution order. -/
structure Run where
  outcome : Outcome
  state : State
  reads : List Nat

/-- The body `*inout = data;` of `getPtrToString`, where `inout` designates the
pointer cell to fill. -/
def getPtrToString (inout : Nat) (s : State) : Run :=
  { outcome := .returned
    state := { s with slots := Function.update s.slots inout (.obj .data 0) }
    reads := [] }

/-- The loop `for (int i = 0; i < 8; ++i) { assert(bytes[i] == 0xaa); }` from
the iteration with counter `i` onwards. -/
def consumeBytesLoop (bytes : Ptr) (s : State) (i : Nat) (reads : List Nat) : Run :=
  if i < 8 then
    match load s (bytes.add i) with
    | none => { outcome := .undefined, state := s, reads := reads ++ [i] }
    | some b =>
      if b = 0xaa then consumeBytesLoop bytes s (i + 1) (reads ++ [i])
      else { outcome := .assertFailed, state := s, reads := reads ++ [i] }
  else { outcome := .returned, state := s, reads := reads }
termination_by 8 - i

/-- The function `void consumeBytes(unsigned char *bytes)`. -/
def consumeBytes (bytes : Ptr) (s : State) : Run :=
  consumeBytesLoop bytes s 0 []

/-- The text a caller obtains when it reads the elements from `p` up to, and not
including, the first 0 element, looking at no more than `fuel` elements; `none`
when a read leaves the object or no terminator is met within `fuel` elements. -/
def readCString (s : State) : Ptr → Nat → Option (List Nat)
  | _, 0 => none
  | p, fuel + 1 =>
    match load s p with
    | none => none
    | some 0 => some []
    | some (c + 1) => (readCString s (p.add 1) fuel).map (fun cs => (c + 1) :: cs)

/-- Caller memory in which array 0 is eight bytes that all hold 0xAA, as in the
second end-to-end scenario. -/
def sentinelMemory : State :=
  { slots := fun _ => .null
    bufs := fun id => if id = 0 then List.replicate 8 0xaa else [] }

/-- Caller memory in which array 0 is eight bytes, 0xAA except for the last one
which is 0x00, as in the third end-to-end scenario. -/
def lastByteZeroMemory : State :=
  { slots := fun _ => .null
    bufs := fun id => if id = 0 then List.replicate 7 0xaa ++ [0x00] else [] }

end CInterop

namespace Probe

/-- The vendor library `ftd2xx` behind `ftd2xx.h`, which the repository only
links against. It is a parameter of the embedding: the value of the status
constant `FT_OK` and, for each of the four entry points `main` uses, a
transition on the library's own state `σ`.

* `FT_Open deviceIndex old drv` is `FT_Open(deviceIndex, &ft_handle)` with `old`
  the content of `ft_handle` before the call; it yields the status, the content
  of `ft_handle` after the call, and the next library state.
* The other three take the handle (and their `UCHAR` arguments) and yield the
  status and the next library state. -/
structure Ftd2xx (σ : Type) where
  FT_OK : Nat
  FT_Open : Nat → Nat → σ → Nat × Nat × σ
  FT_SetBitMode : Nat → Nat → Nat → σ → Nat × σ
  FT_SetLatencyTimer : Nat → Nat → σ → Nat × σ
  FT_Close : Nat → σ → Nat × σ

/-- A library call as `main` issues it, with its arguments. -/
inductive Call where
  | FT_Open (deviceIndex : Nat)
  | FT_SetBitMode (ftHandle mask mode : Nat)
  | FT_SetLatencyTimer (ftHandle timer : Nat)
  | FT_Close (ftHandle : Nat)
deriving DecidableEq, Repr

/-- Whether the call is `FT_Close`. -/
def Call.isClose : Call → Bool
  | .FT_Close _ => true
  | _ => false

/-- One observed library call and the status it returned. -/
structure Event where
  call : Call
  status : Nat
deriving DecidableEq, Repr

/-- How the process ends: `return(code)` from `main`, or termination by a failed
`assert`. -/
inductive Exit where
  | exited (code : Int)
  | assertFailed
deriving DecidableEq, Repr

/-- The result of running `main`: how the process ended, the library calls in the
order they were made, and the library state left behind. -/
structure Run (σ : Type) where
  outcome : Exit
  trace : List Event
  driver : σ

/-- The local `UCHAR mpsse_mode = 0x2;`. -/
def mpsse_mode : Nat := 0x2

/-- The local `UCHAR mask = 0;`. -/
def mask : Nat := 0

/-- The local `UCHAR usec = 17;`. -/
def usec : Nat := 17

/-- The function `int main()` of `probe.c`. `drv` is the library state at process
start and `ft_handle0` the indeterminate initial content of the local
`ft_handle`. -/
def main {σ : Type} (d : Ftd2xx σ) (drv : σ) (ft_handle0 : Nat) : Run σ :=
  let r1 := d.FT_Open 0 ft_handle0 drv
  let ft_handle := r1.2.1
  let t1 : List Event := [⟨.FT_Open 0, r1.1⟩]
  if r1.1 = d.FT_OK then
    let r2 := d.FT_SetBitMode ft_handle mask mpsse_mode r1.2.2
    let t2 := t1 ++ [⟨.FT_SetBitMode ft_handle mask mpsse_mode, r2.1⟩]
    if r2.1 = d.FT_OK then
      let r3 := d.FT_SetLatencyTimer ft_handle usec r2.2
      let t3 := t2 ++ [⟨.FT_SetLatencyTimer ft_handle usec, r3.1⟩]
      if r3.1 = d.FT_OK then
        let r4 := d.FT_Close ft_handle r3.2
        { outcome := .exited 0
          trace := t3 ++ [⟨.FT_Close ft_handle, r4.1⟩]
          driver := r4.2 }
      else { outcome := .assertFailed, trace := t3, driver := r3.2 }
    else { outcome := .assertFailed, trace := t2, driver := r2.2 }
  else { outcome := .assertFailed, trace := t1, driver := r1.2.2 }

/-- The setup packet of a USB control transfer as the comments of `probe.c`
record it (`s 40 0b 0200 0000 0000 0`): request type, request, value word,
index word, length word. -/
structure SetupPacket where
  bmRequestType : Nat
  bRequest : Nat
  wValue : Nat
  wIndex : Nat
  wLength : Nat
deriving DecidableEq, Repr

/-- The comment after the `FT_SetBitMode` call:
`... S Co:2:003:0 s 40 0b 0200 0000 0000 0`. -/
def setBitModeTransfer : SetupPacket :=
  { bmRequestType := 0x40, bRequest := 0x0b, wValue := 0x0200, wIndex := 0x0000, wLength := 0x0000 }

/-- The comment after the `FT_SetLatencyTimer` call:
`... S Co:2:003:0 s 40 09 0011 0000 0000 0`. -/
def setLatencyTransfer : SetupPacket :=
  { bmRequestType := 0x40, bRequest := 0x09, wValue := 0x0011, wIndex := 0x0000, wLength := 0x0000 }

/-- A stand-in for the vendor library. Its state counts the calls made so far;
the call made in state `n` returns status `script n`, `FT_OK` is 0 and `FT_Open`
stores the handle 42. -/
def stub (script : Nat → Nat) : Ftd2xx Nat :=
  { FT_OK := 0
    FT_Open := fun _ _ n => (script n, 42, n + 1)
    FT_SetBitMode := fun _ _ _ n => (script n, n + 1)
    FT_SetLatencyTimer := fun _ _ n => (script n, n + 1)
    FT_Close := fun _ n => (script n, n + 1) }

/-- Every call succeeds (fourth end-to-end scenario). -/
def allSucceed : Nat → Nat := fun _ => 0

/-- The second call, `FT_SetBitMode`, fails with status 1 (fifth end-to-end
scenario). -/
def setBitModeFails : Nat → Nat := fun n => if n = 1 then 1 else 0

/-- Only the fourth call, `FT_Close`, fails, with status 1. -/
def closeFails : Nat → Nat := fun n => if n = 3 then 1 else 0

end Probe

/-! ## `consumeBytes`: the loop -/

namespace CInterop

theorem consumeBytesLoop_done (bytes : Ptr) (s : State) (i : Nat) (reads : List Nat)
    (hi : 8 ≤ i) :
    consumeBytesLoop bytes s i reads = ⟨.returned, s, reads⟩ := by
  rw [consumeBytesLoop, if_neg (by omega)]

theorem consumeBytesLoop_match (bytes : Ptr) (s : State) (i : Nat) (reads : List Nat)
    (hi : i < 8) (hb : load s (bytes.add i) = some 0xaa) :
    consumeBytesLoop bytes s i reads = consumeBytesLoop bytes s (i + 1) (reads ++ [i]) := by
  rw [consumeBytesLoop, if_pos hi, hb]
  simp

theorem consumeBytesLoop_mismatch (bytes : Ptr) (s : State) (i : Nat) (reads : List Nat)
    (hi : i < 8) (b : Nat) (hb : load s (bytes.add i) = some b) (hne : b ≠ 0xaa) :
    consumeBytesLoop bytes s i reads = ⟨.assertFailed, s, reads ++ [i]⟩ := by
  rw [consumeBytesLoop, if_pos hi, hb]
  simp [hne]

theorem consumeBytesLoop_outside (bytes : Ptr) (s : State) (i : Nat) (reads : List Nat)
    (hi : i < 8) (hb : load s (bytes.add i) = none) :
    consumeBytesLoop bytes s i reads = ⟨.undefined, s, reads ++ [i]⟩ := by
  rw [consumeBytesLoop, if_pos hi, hb]

/-- Iterations `i, …, i + n - 1` that all find the sentinel only extend the list
of reads. -/
theorem consumeBytesLoop_skip (bytes : Ptr) (s : State) (n : Nat) :
    ∀ (i : Nat) (reads : List Nat), i + n ≤ 8 →
      (∀ j, i ≤ j → j < i + n → load s (bytes.add j) = some 0xaa) →
      consumeBytesLoop bytes s i reads =
        consumeBytesLoop bytes s (i + n) (reads ++ List.range' i n) := by
  induction n with
  | zero => intro i reads _ _; simp
  | succ n ih =>
    intro i reads hle hall
    rw [consumeBytesLoop_match bytes s i reads (by omega) (hall i (le_refl i) (by omega)),
      ih (i + 1) (reads ++ [i]) (by omega) (fun j h1 h2 => hall j (by omega) (by omega))]
    have : i + 1 + n = i + (n + 1) := by omega
    rw [this, List.range'_succ]
    simp

theorem consumeBytes_skip (bytes : Ptr) (s : State) (k : Nat) (hk : k ≤ 8)
    (hall : ∀ j, j < k → load s (bytes.add j) = some 0xaa) :
    consumeBytes bytes s = consumeBytesLoop bytes s k (List.range k) := by
  have := consumeBytesLoop_skip bytes s k 0 [] (by omega) (fun j _ h => hall j (by omega))
  simpa [consumeBytes, List.range_eq_range'] using this

/-- Either the first eight elements all hold the sentinel, or there is a first
index below 8 at which the read does not yield it. -/
theorem first_mismatch (bytes : Ptr) (s : State) :
    (∀ j, j < 8 → load s (bytes.add j) = some 0xaa) ∨
    ∃ k, k < 8 ∧ load s (bytes.add k) ≠ some 0xaa ∧
      ∀ j, j < k → load s (bytes.add j) = some 0xaa := by
  by_cases h : ∃ k, k < 8 ∧ load s (bytes.add k) ≠ some 0xaa
  · refine Or.inr ⟨Nat.find h, (Nat.find_spec h).1, (Nat.find_spec h).2, fun j hj => ?_⟩
    have hmin := Nat.find_min h hj
    have hlt : j < 8 := lt_trans hj (Nat.find_spec h).1
    by_contra hne
    exact hmin ⟨hlt, hne⟩
  · refine Or.inl fun j hj => ?_
    by_contra hne
    exact h ⟨j, hj, hne⟩

/-- The three ways a call of `consumeBytes` can go, each with the complete
result. -/
theorem consumeBytes_cases (bytes : Ptr) (s : State) :
    ((∀ j, j < 8 → load s (bytes.add j) = some 0xaa) ∧
      consumeBytes bytes s = ⟨.returned, s, List.range 8⟩) ∨
    ∃ k, k < 8 ∧ (∀ j, j < k → load s (bytes.add j) = some 0xaa) ∧
      ((∃ b, load s (bytes.add k) = some b ∧ b ≠ 0xaa ∧
          consumeBytes bytes s = ⟨.assertFailed, s, List.range (k + 1)⟩) ∨
       (load s (bytes.add k) = none ∧
          consumeBytes bytes s = ⟨.undefined, s, List.range (k + 1)⟩)) := by
  rcases first_mismatch bytes s with hall | ⟨k, hk, hne, hall⟩
  · exact Or.inl ⟨hall, by
      rw [consumeBytes_skip bytes s 8 (le_refl 8) hall,
        consumeBytesLoop_done bytes s 8 _ (le_refl 8)]⟩
  · refine Or.inr ⟨k, hk, hall, ?_⟩
    rw [consumeBytes_skip bytes s k (le_of_lt hk) hall, List.range_succ]
    cases hl : load s (bytes.add k) with
    | none => exact Or.inr ⟨rfl, consumeBytesLoop_outside bytes s k _ hk hl⟩
    | some b =>
      have hb : b ≠ 0xaa := fun h => hne (by rw [hl, h])
      exact Or.inl ⟨b, rfl, hb, consumeBytesLoop_mismatch bytes s k _ hk b hl hb⟩

/-- The memory a call of `consumeBytes` leaves behind is the memory it started
from, however the call ends. -/
theorem consumeBytes_state (bytes : Ptr) (s : State) : (consumeBytes bytes s).state = s := by
  rcases consumeBytes_cases bytes s with ⟨_, hr⟩ | ⟨k, _, _, ⟨b, _, _, hr⟩ | ⟨_, hr⟩⟩ <;>
    rw [hr]

theorem consumeBytes_sentinelMemory :
    consumeBytes (.obj (.caller 0) 0) sentinelMemory =
      ⟨.returned, sentinelMemory, List.range 8⟩ := by
  rcases consumeBytes_cases (.obj (.caller 0) 0) sentinelMemory with
    ⟨_, hr⟩ | ⟨k, hk, _, ⟨b, hb, hne, _⟩ | ⟨hb, _⟩⟩
  · exact hr
  · interval_cases k <;> simp [load, Ptr.add, sentinelMemory] at hb <;> omega
  · interval_cases k <;> simp [load, Ptr.add, sentinelMemory] at hb

/-! ## `consumeBytes`: the claims -/

/-- C1. When the eight elements `bytes[0]`, …, `bytes[7]` all hold the sentinel
0xAA, `consumeBytes` returns normally: no assertion fails and no read is out of
range. -/
theorem consumeBytes_returns_on_sentinel_buffer (bytes : Ptr) (s : State)
    (h : ∀ i, i < 8 → load s (bytes.add i) = some 0xaa) :
    (consumeBytes bytes s).outcome = .returned := by
  rcases consumeBytes_cases bytes s with ⟨_, hr⟩ | ⟨k, hk, _, ⟨b, hb, hne, _⟩ | ⟨hb, _⟩⟩
  · rw [hr]
  · rw [h k hk] at hb; exact absurd (Option.some.inj hb).symm hne
  · rw [h k hk] at hb; exact absurd hb (by simp)

theorem consumeBytes_returns_on_sentinel_buffer_witness :
    (∀ i, i < 8 → load sentinelMemory ((Ptr.obj (.caller 0) 0).add i) = some 0xaa) ∧
    (consumeBytes (.obj (.caller 0) 0) sentinelMemory).outcome = .returned :=
  ⟨by decide, consumeBytes_returns_on_sentinel_buffer (.obj (.caller 0) 0) sentinelMemory
    (by decide)⟩

/-- C2. On a buffer whose eight elements `bytes[0]`, …, `bytes[7]` exist,
`consumeBytes` ends in a failed assertion exactly when one of them differs from
0xAA, and returns exactly when none does. -/
theorem consumeBytes_aborts_iff_mismatch (bytes : Ptr) (s : State)
    (hbuf : ∀ i, i < 8 → (load s (bytes.add i)).isSome = true) :
    ((consumeBytes bytes s).outcome = .assertFailed ↔
      ∃ i, i < 8 ∧ load s (bytes.add i) ≠ some 0xaa) ∧
    ((consumeBytes bytes s).outcome = .returned ↔
      ∀ i, i < 8 → load s (bytes.add i) = some 0xaa) := by
  rcases consumeBytes_cases bytes s with ⟨hall, hr⟩ | ⟨k, hk, _, ⟨b, hb, hne, hr⟩ | ⟨hb, _⟩⟩
  · rw [hr]
    refine ⟨⟨fun h => by simp at h, fun ⟨i, hi, hne⟩ => absurd (hall i hi) hne⟩,
      ⟨fun _ => hall, fun _ => rfl⟩⟩
  · rw [hr]
    have hk' : load s (bytes.add k) ≠ some 0xaa := by
      rw [hb]; exact fun h => hne (Option.some.inj h)
    exact ⟨⟨fun _ => ⟨k, hk, hk'⟩, fun _ => rfl⟩,
      ⟨fun h => by simp at h, fun hall => absurd (hall k hk) hk'⟩⟩
  · have := hbuf k hk
    rw [hb] at this; simp at this

theorem consumeBytes_aborts_iff_mismatch_witness :
    (∀ i, i < 8 → (load lastByteZeroMemory ((Ptr.obj (.caller 0) 0).add i)).isSome = true) ∧
    load lastByteZeroMemory ((Ptr.obj (.caller 0) 0).add 7) = some 0x00 ∧
    (consumeBytes (.obj (.caller 0) 0) lastByteZeroMemory).outcome = .assertFailed :=
  ⟨by decide, by decide,
    (consumeBytes_aborts_iff_mismatch (.obj (.caller 0) 0) lastByteZeroMemory
      (by decide)).1.mpr ⟨7, by decide, by decide⟩⟩

/-- C8. When the eight elements `bytes[0]`, …, `bytes[7]` exist, `consumeBytes`
never reads out of range; the indices it reads are `0, 1, …, k - 1` in this order
for some `1 ≤ k ≤ 8`, every read but the last found the sentinel, and when fewer
than eight elements were read the last one read was a mismatch. All indices read
are below 8, and the outcome and the reads are the same in any memory that agrees
on the first eight elements. -/
theorem consumeBytes_reads_in_bounds (bytes : Ptr) (s : State)
    (hbuf : ∀ i, i < 8 → (load s (bytes.add i)).isSome = true) :
    (consumeBytes bytes s).outcome ≠ .undefined ∧
    (∀ j ∈ (consumeBytes bytes s).reads, j < 8) ∧
    (∃ k, 1 ≤ k ∧ k ≤ 8 ∧ (consumeBytes bytes s).reads = List.range k ∧
      (∀ j, j + 1 < k → load s (bytes.add j) = some 0xaa) ∧
      (k < 8 → load s (bytes.add (k - 1)) ≠ some 0xaa)) ∧
    (∀ s2 : State, (∀ i, i < 8 → load s2 (bytes.add i) = load s (bytes.add i)) →
      (consumeBytes bytes s2).outcome = (consumeBytes bytes s).outcome ∧
      (consumeBytes bytes s2).reads = (consumeBytes bytes s).reads) := by
  rcases consumeBytes_cases bytes s with ⟨hall, hr⟩ | ⟨k, hk, hall, ⟨b, hb, hne, hr⟩ | ⟨hb, _⟩⟩
  · rw [hr]
    refine ⟨by simp, fun j hj => by simpa using hj, ⟨8, by omega, le_refl 8, rfl,
      fun j hj => hall j (by omega), fun h => absurd h (by omega)⟩, fun s2 hs2 => ?_⟩
    have hall2 : ∀ j, j < 8 → load s2 (bytes.add j) = some 0xaa :=
      fun j hj => (hs2 j hj).trans (hall j hj)
    rw [consumeBytes_skip bytes s2 8 (le_refl 8) hall2,
      consumeBytesLoop_done bytes s2 8 _ (le_refl 8)]
    exact ⟨rfl, rfl⟩
  · rw [hr]
    have hk' : load s (bytes.add k) ≠ some 0xaa := by
      rw [hb]; exact fun h => hne (Option.some.inj h)
    refine ⟨by simp, fun j hj => ?_, ⟨k + 1, by omega, by omega, rfl,
      fun j hj => hall j (by omega), fun _ => by simpa using hk'⟩, fun s2 hs2 => ?_⟩
    · have : j < k + 1 := by simpa using hj
      omega
    · have hall2 : ∀ j, j < k → load s2 (bytes.add j) = some 0xaa :=
        fun j hj => (hs2 j (by omega)).trans (hall j hj)
      rw [consumeBytes_skip bytes s2 k (le_of_lt hk) hall2,
        consumeBytesLoop_mismatch bytes s2 k _ hk b ((hs2 k hk).trans hb) hne,
        List.range_succ]
      exact ⟨rfl, rfl⟩
  · have := hbuf k hk
    rw [hb] at this; simp at this

theorem consumeBytes_reads_in_bounds_witness :
    (∀ i, i < 8 → (load sentinelMemory ((Ptr.obj (.caller 0) 0).add i)).isSome = true) ∧
    (consumeBytes (.obj (.caller 0) 0) sentinelMemory).outcome ≠ .undefined ∧
    (∀ j ∈ (consumeBytes (.obj (.caller 0) 0) sentinelMemory).reads, j < 8) :=
  ⟨by decide,
    (consumeBytes_reads_in_bounds (.obj (.caller 0) 0) sentinelMemory (by decide)).1,
    (consumeBytes_reads_in_bounds (.obj (.caller 0) 0) sentinelMemory (by decide)).2.1⟩

/-- C9. When `consumeBytes` returns, the caller memory (every byte array and
every pointer cell) is what it was before the call; the run carries no return
value. -/
theorem consumeBytes_preserves_memory (bytes : Ptr) (s : State)
    (_h : (consumeBytes bytes s).outcome = .returned) :
    (consumeBytes bytes s).state = s ∧
    (∀ id, (consumeBytes bytes s).state.bufs id = s.bufs id) ∧
    (∀ c, (consumeBytes bytes s).state.slots c = s.slots c) := by
  rw [consumeBytes_state]
  exact ⟨rfl, fun _ => rfl, fun _ => rfl⟩

theorem consumeBytes_preserves_memory_witness :
    (consumeBytes (.obj (.caller 0) 0) sentinelMemory).outcome = .returned ∧
    (consumeBytes (.obj (.caller 0) 0) sentinelMemory).state.bufs 0 =
      [0xaa, 0xaa, 0xaa, 0xaa, 0xaa, 0xaa, 0xaa, 0xaa] :=
  ⟨by rw [consumeBytes_sentinelMemory],
    ((consumeBytes_preserves_memory (.obj (.caller 0) 0) sentinelMemory
      (by rw [consumeBytes_sentinelMemory])).2.1 0).trans (by decide)⟩

/-! ## `getPtrToString` -/

/-- C3. Whatever the memory held before, `getPtrToString` returns, and the
pointer it stored in the cell designates four elements 0x61, 0x62, 0x63, 0x00 and
nothing beyond them; read as a terminated string (with any budget of at least
four elements) this is the three characters of "abc". -/
theorem getPtrToString_yields_abc (inout : Nat) (s : State) :
    (getPtrToString inout s).outcome = .returned ∧
    (∀ k, load (getPtrToString inout s).state
        (((getPtrToString inout s).state.slots inout).add k) =
          [0x61, 0x62, 0x63, 0x00][k]?) ∧
    (∀ fuel, readCString (getPtrToString inout s).state
        ((getPtrToString inout s).state.slots inout) (fuel + 4) =
          some [0x61, 0x62, 0x63]) ∧
    (∀ fuel, (readCString (getPtrToString inout s).state
        ((getPtrToString inout s).state.slots inout) (fuel + 4)).map
          (fun cs => String.mk (cs.map Char.ofNat)) = some "abc") := by
  have hd : data = [0x61, 0x62, 0x63, 0x00] := by decide
  refine ⟨rfl, fun k => ?_, fun fuel => ?_, fun fuel => ?_⟩
  · simp [getPtrToString, Ptr.add, load, hd]
  · simp [getPtrToString, Ptr.add, load, hd, readCString]
  · simp [getPtrToString, Ptr.add, load, hd, readCString]

/-- C4. Two calls of `getPtrToString`, on any cells `a` and `b` and in any two
memories `s1` and `s2` of the process (so with anything done to the caller memory
between them), store the same pointer, and the elements read through it are the
same; a second call on the same cell leaves the memory as the first call left
it. -/
theorem getPtrToString_stable (a b : Nat) (s1 s2 : State) :
    (getPtrToString a s1).state.slots a = (getPtrToString b s2).state.slots b ∧
    (∀ k, load (getPtrToString a s1).state (((getPtrToString a s1).state.slots a).add k) =
      load (getPtrToString b s2).state (((getPtrToString b s2).state.slots b).add k)) ∧
    (getPtrToString a (getPtrToString a s1).state).state = (getPtrToString a s1).state := by
  refine ⟨by simp [getPtrToString], fun k => by simp [getPtrToString, Ptr.add, load], ?_⟩
  simp [getPtrToString]

end CInterop

/-! ## The probe `main` -/

namespace Probe

/-- The four ways a run of `main` can go, each with the complete result: the run
stops after the first checked call whose status is not `FT_OK`, and reaches
`FT_Close` and `return(0)` when there is none. -/
theorem main_cases {σ : Type} (d : Ftd2xx σ) (drv : σ) (h0 : Nat) :
    ∃ (st1 st2 st3 st4 : Nat) (s : σ),
      (st1 ≠ d.FT_OK ∧ main d drv h0 =
        ⟨.assertFailed, [⟨.FT_Open 0, st1⟩], s⟩) ∨
      (st1 = d.FT_OK ∧ st2 ≠ d.FT_OK ∧ main d drv h0 =
        ⟨.assertFailed, [⟨.FT_Open 0, st1⟩,
          ⟨.FT_SetBitMode (d.FT_Open 0 h0 drv).2.1 0x00 0x02, st2⟩], s⟩) ∨
      (st1 = d.FT_OK ∧ st2 = d.FT_OK ∧ st3 ≠ d.FT_OK ∧ main d drv h0 =
        ⟨.assertFailed, [⟨.FT_Open 0, st1⟩,
          ⟨.FT_SetBitMode (d.FT_Open 0 h0 drv).2.1 0x00 0x02, st2⟩,
          ⟨.FT_SetLatencyTimer (d.FT_Open 0 h0 drv).2.1 17, st3⟩], s⟩) ∨
      (st1 = d.FT_OK ∧ st2 = d.FT_OK ∧ st3 = d.FT_OK ∧ main d drv h0 =
        ⟨.exited 0, [⟨.FT_Open 0, st1⟩,
          ⟨.FT_SetBitMode (d.FT_Open 0 h0 drv).2.1 0x00 0x02, st2⟩,
          ⟨.FT_SetLatencyTimer (d.FT_Open 0 h0 drv).2.1 17, st3⟩,
          ⟨.FT_Close (d.FT_Open 0 h0 drv).2.1, st4⟩], s⟩) := by
  let r1 := d.FT_Open 0 h0 drv
  let r2 := d.FT_SetBitMode r1.2.1 mask mpsse_mode r1.2.2
  let r3 := d.FT_SetLatencyTimer r1.2.1 usec r2.2
  let r4 := d.FT_Close r1.2.1 r3.2
  by_cases h1 : r1.1 = d.FT_OK
  · by_cases h2 : r2.1 = d.FT_OK
    · by_cases h3 : r3.1 = d.FT_OK
      · exact ⟨r1.1, r2.1, r3.1, r4.1, r4.2, Or.inr (Or.inr (Or.inr ⟨h1, h2, h3, by
          simp only [main, if_pos h1, if_pos h2, if_pos h3]; rfl⟩))⟩
      · exact ⟨r1.1, r2.1, r3.1, 0, r3.2, Or.inr (Or.inr (Or.inl ⟨h1, h2, h3, by
          simp only [main, if_pos h1, if_pos h2, if_neg h3]; rfl⟩))⟩
    · exact ⟨r1.1, r2.1, 0, 0, r2.2, Or.inr (Or.inl ⟨h1, h2, by
          simp only [main, if_pos h1, if_neg h2]; rfl⟩)⟩
  · exact ⟨r1.1, 0, 0, 0, r1.2.2, Or.inl ⟨h1, by simp only [main, if_neg h1]⟩⟩

/-- C5. When every checked call that `main` makes (every call other than
`FT_Close`) reports `FT_OK`, the calls observed are, in this order,
`FT_Open(0, …)`, `FT_SetBitMode(h, 0x00, 0x02)`, `FT_SetLatencyTimer(h, 17)` and
`FT_Close(h)`, with `h` the handle `FT_Open` stored, and `main` returns 0. -/
theorem main_success_call_sequence {σ : Type} (d : Ftd2xx σ) (drv : σ) (h0 : Nat)
    (hok : ∀ e ∈ (main d drv h0).trace, e.call.isClose = false → e.status = d.FT_OK) :
    (main d drv h0).trace.map Event.call =
      [.FT_Open 0,
       .FT_SetBitMode (d.FT_Open 0 h0 drv).2.1 0x00 0x02,
       .FT_SetLatencyTimer (d.FT_Open 0 h0 drv).2.1 17,
       .FT_Close (d.FT_Open 0 h0 drv).2.1] ∧
    (main d drv h0).outcome = .exited 0 := by
  obtain ⟨st1, st2, st3, st4, s, hc⟩ := main_cases d drv h0
  rcases hc with ⟨h1, hm⟩ | ⟨h1, h2, hm⟩ | ⟨h1, h2, h3, hm⟩ | ⟨h1, h2, h3, hm⟩
  · rw [hm] at hok
    exact absurd (hok ⟨.FT_Open 0, st1⟩ (by simp) rfl) h1
  · rw [hm] at hok
    exact absurd
      (hok ⟨.FT_SetBitMode (d.FT_Open 0 h0 drv).2.1 0 2, st2⟩ (by simp) rfl) h2
  · rw [hm] at hok
    exact absurd
      (hok ⟨.FT_SetLatencyTimer (d.FT_Open 0 h0 drv).2.1 17, st3⟩ (by simp) rfl) h3
  · rw [hm]; simp

theorem main_success_call_sequence_witness :
    (∀ e ∈ (main (stub allSucceed) 0 7).trace,
      e.call.isClose = false → e.status = (stub allSucceed).FT_OK) ∧
    (main (stub allSucceed) 0 7).trace.map Event.call =
      [.FT_Open 0, .FT_SetBitMode 42 0x00 0x02, .FT_SetLatencyTimer 42 17, .FT_Close 42] ∧
    (main (stub allSucceed) 0 7).outcome = .exited 0 :=
  ⟨by decide, main_success_call_sequence (stub allSucceed) 0 7 (by decide)⟩

/-- C6. When some observed call other than `FT_Close` (the call at position `i`
of the trace) returned a status other than `FT_OK`, the process ended in a failed
assertion, that call is the last one observed, the calls observed are the first
`i + 1` of open, set-bit-mode, set-latency-timer, close, every earlier call
reported `FT_OK`, and `FT_Close` was not called. -/
theorem main_aborts_at_first_failed_call {σ : Type} (d : Ftd2xx σ) (drv : σ) (h0 : Nat)
    (i : Nat) (e : Event)
    (hi : (main d drv h0).trace[i]? = some e)
    (hchecked : e.call.isClose = false)
    (hfail : e.status ≠ d.FT_OK) :
    (main d drv h0).outcome = .assertFailed ∧
    (main d drv h0).trace.length = i + 1 ∧
    (main d drv h0).trace.map Event.call =
      ([.FT_Open 0,
        .FT_SetBitMode (d.FT_Open 0 h0 drv).2.1 0x00 0x02,
        .FT_SetLatencyTimer (d.FT_Open 0 h0 drv).2.1 17,
        .FT_Close (d.FT_Open 0 h0 drv).2.1] : List Call).take (i + 1) ∧
    (∀ j e2, j < i → (main d drv h0).trace[j]? = some e2 → e2.status = d.FT_OK) ∧
    (∀ e2 ∈ (main d drv h0).trace, e2.call.isClose = false) := by
  obtain ⟨st1, st2, st3, st4, s, hc⟩ := main_cases d drv h0
  rcases hc with ⟨h1, hm⟩ | ⟨h1, h2, hm⟩ | ⟨h1, h2, h3, hm⟩ | ⟨h1, h2, h3, hm⟩
  all_goals
    rw [hm] at hi ⊢
    rcases i with _ | _ | _ | _ | i <;> simp at hi <;> subst hi <;>
      simp_all [Call.isClose]
  intro j e2 hj he
  interval_cases j <;> simp at he <;> subst he <;> rfl

theorem main_aborts_at_first_failed_call_witness :
    (main (stub setBitModeFails) 0 7).trace[1]? = some ⟨.FT_SetBitMode 42 0x00 0x02, 1⟩ ∧
    (main (stub setBitModeFails) 0 7).outcome = .assertFailed ∧
    (main (stub setBitModeFails) 0 7).trace.length = 2 ∧
    (main (stub setBitModeFails) 0 7).trace.map Event.call =
      [.FT_Open 0, .FT_SetBitMode 42 0x00 0x02] :=
  have h := main_aborts_at_first_failed_call (stub setBitModeFails) 0 7 1
    ⟨.FT_SetBitMode 42 0x00 0x02, 1⟩ (by decide) (by decide) (by decide)
  ⟨by decide, h.1, h.2.1, h.2.2.1⟩

/-- C7. When every checked call reported `FT_OK`, `main` returns 0 whatever
status `st` the library returns from `FT_Close`, and that status is the one
observed for the final call. Moreover, for any observed call with a status other
than `FT_OK`, the process ended in a failed assertion exactly when the call is
not `FT_Close`, and `main` returned 0 exactly when it is. -/
theorem main_ignores_close_status {σ : Type} (d : Ftd2xx σ) (drv : σ) (h0 : Nat) :
    ((∀ e ∈ (main d drv h0).trace, e.call.isClose = false → e.status = d.FT_OK) →
      ∀ (st : Nat) (close : Nat → σ → Nat × σ), (∀ h s, (close h s).1 = st) →
        (main { d with FT_Close := close } drv h0).outcome = .exited 0 ∧
        (main { d with FT_Close := close } drv h0).trace.getLast? =
          some ⟨.FT_Close (d.FT_Open 0 h0 drv).2.1, st⟩) ∧
    (∀ e ∈ (main d drv h0).trace, e.status ≠ d.FT_OK →
      ((main d drv h0).outcome = .assertFailed ↔ e.call.isClose = false) ∧
      ((main d drv h0).outcome = .exited 0 ↔ e.call.isClose = true)) := by
  constructor
  · intro hok st close hclose
    by_cases h1 : (d.FT_Open 0 h0 drv).1 = d.FT_OK
    · by_cases h2 : (d.FT_SetBitMode (d.FT_Open 0 h0 drv).2.1 mask mpsse_mode
          (d.FT_Open 0 h0 drv).2.2).1 = d.FT_OK
      · by_cases h3 : (d.FT_SetLatencyTimer (d.FT_Open 0 h0 drv).2.1 usec
            (d.FT_SetBitMode (d.FT_Open 0 h0 drv).2.1 mask mpsse_mode
              (d.FT_Open 0 h0 drv).2.2).2).1 = d.FT_OK
        · simp [main, h1, h2, h3, hclose]
        · simp [main, h1, h2, h3, Call.isClose] at hok
      · simp [main, h1, h2, Call.isClose] at hok
    · simp [main, h1, Call.isClose] at hok
  · obtain ⟨st1, st2, st3, st4, s, hc⟩ := main_cases d drv h0
    rcases hc with ⟨h1, hm⟩ | ⟨h1, h2, hm⟩ | ⟨h1, h2, h3, hm⟩ | ⟨h1, h2, h3, hm⟩ <;>
      rw [hm] <;> simp [Call.isClose, *]

theorem main_ignores_close_status_witness :
    (main (stub closeFails) 0 7).trace.getLast? = some ⟨.FT_Close 42, 1⟩ ∧
    (main (stub closeFails) 0 7).outcome = .exited 0 ∧
    (main { stub allSucceed with FT_Close := fun _ s => (5, s) } 0 7).outcome = .exited 0 :=
  ⟨by decide,
    ((main_ignores_close_status (stub closeFails) 0 7).2 ⟨.FT_Close 42, 1⟩
      (by decide) (by decide)).2.mpr rfl,
    ((main_ignores_close_status (stub allSucceed) 0 7).1 (by decide) 5
      (fun _ s => (5, s)) (fun _ _ => rfl)).1⟩

/-- C10. The value words in the two comments agree with the arguments of the
calls they follow. The comment for request 0x0b records 0x0200, which is
`mpsse_mode * 256 + mask` (mode 0x2 in the high byte, mask 0 in the low byte);
the comment for request 0x09 records 0x0011, whose high and low bytes 0x00, 0x11
are the 16-bit big-endian form of `usec = 17`. Every `FT_SetBitMode` and
`FT_SetLatencyTimer` call that `main` makes carries arguments that encode to
these words. -/
theorem comment_words_match_arguments {σ : Type} (d : Ftd2xx σ) (drv : σ) (h0 : Nat)
    (e : Event) (he : e ∈ (main d drv h0).trace) :
    setBitModeTransfer.bRequest = 0x0b ∧
    setBitModeTransfer.wValue = 0x0200 ∧
    setBitModeTransfer.wValue = mpsse_mode * 256 + mask ∧
    mpsse_mode = 0x2 ∧ mask = 0 ∧
    setBitModeTransfer.wValue / 256 = mpsse_mode ∧
    setBitModeTransfer.wValue % 256 = mask ∧
    setLatencyTransfer.bRequest = 0x09 ∧
    setLatencyTransfer.wValue = 0x0011 ∧
    usec = 17 ∧
    [setLatencyTransfer.wValue / 256, setLatencyTransfer.wValue % 256] =
      [usec / 256 % 256, usec % 256] ∧
    (∀ h m md, e.call = .FT_SetBitMode h m md →
      md * 256 + m = setBitModeTransfer.wValue) ∧
    (∀ h t, e.call = .FT_SetLatencyTimer h t →
      [t / 256 % 256, t % 256] =
        [setLatencyTransfer.wValue / 256, setLatencyTransfer.wValue % 256]) := by
  refine ⟨by decide, by decide, by decide, by decide, by decide, by decide, by decide,
    by decide, by decide, by decide, by decide, ?_, ?_⟩
  all_goals
    revert e
    obtain ⟨st1, st2, st3, st4, s, hc⟩ := main_cases d drv h0
    rcases hc with ⟨h1, hm⟩ | ⟨h1, h2, hm⟩ | ⟨h1, h2, h3, hm⟩ | ⟨h1, h2, h3, hm⟩ <;>
      rw [hm] <;> simp [setBitModeTransfer, setLatencyTransfer]

theorem comment_words_match_arguments_witness :
    (⟨.FT_SetBitMode 42 0 2, 0⟩ : Event) ∈ (main (stub allSucceed) 0 7).trace ∧
    2 * 256 + 0 = setBitModeTransfer.wValue :=
  ⟨by decide,
    (comment_words_match_arguments (stub allSucceed) 0 7 ⟨.FT_SetBitMode 42 0 2, 0⟩
      (by decide)).2.2.2.2.2.2.2.2.2.2.2.1 42 0 2 rfl⟩

end Probe
